import Mathlib

/-!
Shallow embedding of the ca-adoption-scanner core (src/tracker.go) and proofs
about its aggregation, classification, reporting and worker-loop logic.

Counters are modelled as natural numbers: every counter in the source is an
int64 that is only ever incremented by one per processed item, so wraparound
is unreachable in any run and is not modelled.
-/

namespace CAScan

/-- Mirror of the per-name probe record `result` in tracker.go (lines 57-69).
Go zero value is all-false, matching the field defaults here. -/
structure result where
  skipped              : Bool := false
  hostAvailable        : Bool := false
  tlsError             : Bool := false
  usingMiscInvalidCert : Bool := false
  usingExpiredCert     : Bool := false
  usingIncompleteChain : Bool := false
  usingWrongCert       : Bool := false
  usingSelfSignedCert  : Bool := false
  certUsed             : Bool := false
  ocspStapled          : Bool := false
  servesSCTs           : Bool := false
deriving DecidableEq, Repr

/-- Mirror of the aggregation state: the `collectedResults` counters plus the
progress counters `processedCerts` and `processedNames` of `tester`
(tracker.go lines 20-55), flattened into one record. -/
structure TState where
  processedCerts            : Nat := 0
  processedNames            : Nat := 0
  NamesSkipped              : Nat := 0
  NamesUnavailable          : Nat := 0
  NamesTLSError             : Nat := 0
  NamesUsingMiscInvalidCert : Nat := 0
  NamesUsingExpiredCert     : Nat := 0
  NamesUsingIncompleteChain : Nat := 0
  NamesUsingWrongCert       : Nat := 0
  NamesUsingSelfSignedCert  : Nat := 0
  NamesWithOCSPStapled      : Nat := 0
  NamesServingSCTs          : Nat := 0
  NamesCertNotUsed          : Nat := 0
  CertsUnused               : Nat := 0
  CertsPartiallyUsed        : Nat := 0
  CertsTotallyUsed          : Nat := 0
deriving DecidableEq, Repr

/-- The all-zero state the scan starts from. -/
def zeroState : TState := {}

/-- One iteration of the loop body of `processResults` (tracker.go lines
73-114): given the state and the running `used` count, dispatch one result
through the if-chain, incrementing exactly the matching name counter, or
the `used` count (after the optional OCSP/SCT increments) when the
certificate was actually used by this name. -/
def recordName (s : TState) (used : Nat) (r : result) : TState × Nat :=
  if r.skipped then ({ s with NamesSkipped := s.NamesSkipped + 1 }, used)
  else if !r.hostAvailable then ({ s with NamesUnavailable := s.NamesUnavailable + 1 }, used)
  else if r.tlsError then ({ s with NamesTLSError := s.NamesTLSError + 1 }, used)
  else if r.usingMiscInvalidCert then
    ({ s with NamesUsingMiscInvalidCert := s.NamesUsingMiscInvalidCert + 1 }, used)
  else if r.usingExpiredCert then
    ({ s with NamesUsingExpiredCert := s.NamesUsingExpiredCert + 1 }, used)
  else if r.usingIncompleteChain then
    ({ s with NamesUsingIncompleteChain := s.NamesUsingIncompleteChain + 1 }, used)
  else if r.usingWrongCert then
    ({ s with NamesUsingWrongCert := s.NamesUsingWrongCert + 1 }, used)
  else if r.usingSelfSignedCert then
    ({ s with NamesUsingSelfSignedCert := s.NamesUsingSelfSignedCert + 1 }, used)
  else if !r.certUsed then ({ s with NamesCertNotUsed := s.NamesCertNotUsed + 1 }, used)
  else
    let s1 := if r.ocspStapled then
      { s with NamesWithOCSPStapled := s.NamesWithOCSPStapled + 1 } else s
    let s2 := if r.servesSCTs then
      { s1 with NamesServingSCTs := s1.NamesServingSCTs + 1 } else s1
    (s2, used + 1)

/-- The fold step over a state/used pair, as used by the loop of
`processResults`. -/
def recordLoop (p : TState × Nat) (r : result) : TState × Nat :=
  recordName p.1 p.2 r

/-- Mirror of `processResults` (tracker.go lines 71-122): run the per-name
loop, then classify the certificate by the trailing if-chain on `used`
versus `len(results)` (lines 115-121), in exactly the source order
(`used == len` first, then `used < len && used > 0`, then `used == 0`, then
an implicit no-op else). -/
def processResults (s : TState) (results : List result) : TState :=
  let p := results.foldl recordLoop (s, 0)
  let s := p.1
  let used := p.2
  if used = results.length then
    { s with CertsTotallyUsed := s.CertsTotallyUsed + 1 }
  else if used < results.length ∧ used > 0 then
    { s with CertsPartiallyUsed := s.CertsPartiallyUsed + 1 }
  else if used = 0 then
    { s with CertsUnused := s.CertsUnused + 1 }
  else s

/-- The probe-outcome taxonomy of the data model, one tag per (certificate,
name) pair. -/
inductive ProbeOutcome where
  | Skipped
  | Unavailable
  | TLSError
  | IncompleteChain
  | WrongCert
  | ExpiredCert
  | SelfSignedCert
  | MiscInvalidCert
  | CertNotPresented
  | Valid (ocspStapled : Bool) (sctPresent : Bool)
deriving DecidableEq, Repr

/-- Read the outcome a `result` record encodes, by the same dispatch order
as the loop body of `processResults`: this is the counter (or Valid) that
`recordName` feeds for this result. -/
def classify (r : result) : ProbeOutcome :=
  if r.skipped then .Skipped
  else if !r.hostAvailable then .Unavailable
  else if r.tlsError then .TLSError
  else if r.usingMiscInvalidCert then .MiscInvalidCert
  else if r.usingExpiredCert then .ExpiredCert
  else if r.usingIncompleteChain then .IncompleteChain
  else if r.usingWrongCert then .WrongCert
  else if r.usingSelfSignedCert then .SelfSignedCert
  else if !r.certUsed then .CertNotPresented
  else .Valid r.ocspStapled r.servesSCTs

/-- Whether an outcome is a `Valid` outcome. -/
def isValidOutcome : ProbeOutcome → Bool
  | .Valid _ _ => true
  | _ => false

/-- Number of results in a list that classify as `Valid`. -/
def countValid (rs : List result) : Nat :=
  rs.countP (fun r => isValidOutcome (classify r))

end CAScan

namespace CAScan

/-! Model of Go float64 arithmetic, to the extent `percent` exercises it.
Finite values are carried as exact rationals: `percent` only ever converts
int64 counters and divides, and the claims at issue concern the
zero-denominator behaviour, which rounding of large magnitudes cannot
affect (conversion preserves sign and zero exactly). -/

/-- A Go float64, split by IEEE 754 class. -/
inductive GoFloat where
  | finite (q : ℚ)
  | posInf
  | negInf
  | nan
deriving DecidableEq, Repr

/-- Go float64 division. Division of a finite value by floating-point zero
yields an infinity of the dividend sign, or NaN for 0/0; it never panics. -/
def fdiv : GoFloat → GoFloat → GoFloat
  | .finite a, .finite b =>
    if b = 0 then
      if 0 < a then .posInf else if a < 0 then .negInf else .nan
    else .finite (a / b)
  | .nan, _ => .nan
  | _, .nan => .nan
  | .posInf, .posInf => .nan
  | .posInf, .negInf => .nan
  | .negInf, .posInf => .nan
  | .negInf, .negInf => .nan
  | .posInf, .finite b => if 0 ≤ b then .posInf else .negInf
  | .negInf, .finite b => if 0 ≤ b then .negInf else .posInf
  | .finite _, .posInf => .finite 0
  | .finite _, .negInf => .finite 0

/-- Go float64 multiplication, to the extent `percent` uses it (second
factor is always the finite literal 100.0). -/
def fmul : GoFloat → GoFloat → GoFloat
  | .nan, _ => .nan
  | _, .nan => .nan
  | .finite a, .finite b => .finite (a * b)
  | .posInf, .finite b => if 0 < b then .posInf else if b < 0 then .negInf else .nan
  | .finite a, .posInf => if 0 < a then .posInf else if a < 0 then .negInf else .nan
  | .negInf, .finite b => if 0 < b then .negInf else if b < 0 then .posInf else .nan
  | .finite a, .negInf => if 0 < a then .negInf else if a < 0 then .posInf else .nan
  | .posInf, .posInf => .posInf
  | .negInf, .negInf => .posInf
  | .posInf, .negInf => .negInf
  | .negInf, .posInf => .negInf

/-- Go conversion float64(n) of an int64, carried exactly (rounding for
magnitudes beyond 2^53 preserves sign and zero, the only properties the
division claims depend on). -/
def floatOfInt64 (n : ℤ) : GoFloat := .finite (n : ℚ)

/-- Mirror of `percent` (tracker.go lines 162-164):
`(float64(n) / float64(t)) * 100.0`. -/
def percent (n t : ℤ) : GoFloat :=
  fmul (fdiv (floatOfInt64 n) (floatOfInt64 t)) (.finite 100)

/-! Model of the probe (`checkName`, tracker.go lines 188-254). The network
is abstracted as, per DNS name, either a dial error or a TLS connection
state; `checkName` is then the pure classification the source performs on
that value. Raw certificate bytes are lists of naturals and the SHA-256
digest is an explicit function parameter: none of the claims depend on any
property of the digest beyond being a function of the raw bytes. -/

/-- Reasons of x509.CertificateInvalidError, as in Go crypto/x509. -/
inductive InvalidReason where
  | NotAuthorizedToSign
  | Expired
  | CANotAuthorizedForThisName
  | TooManyIntermediates
  | IncompatibleUsage
deriving DecidableEq, Repr

/-- A failed dial, as the error branch of `checkName` inspects it: the
dynamic type (the Go type assertions), the flags those types expose, and
the message string (for the tls:/EOF check). An `opError` carries its
Timeout() and Temporary() flags and, when its inner error is a
net.DNSError, that inner error with its own Timeout() and Temporary()
flags. -/
inductive DialError where
  | opError (msg : String) (timeout temporary : Bool) (dnsErr : Option (Bool × Bool))
  | x509UnknownAuthority (msg : String)
  | x509Hostname (msg : String)
  | x509CertificateInvalid (reason : InvalidReason) (msg : String)
  | otherError (msg : String)
deriving DecidableEq, Repr

/-- The Error() string of a dial error. -/
def DialError.msg : DialError → String
  | .opError m _ _ _ => m
  | .x509UnknownAuthority m => m
  | .x509Hostname m => m
  | .x509CertificateInvalid _ m => m
  | .otherError m => m

/-- Discriminator for the `*net.OpError` type assertion. -/
def DialError.isOpError : DialError → Bool
  | .opError _ _ _ _ => true
  | _ => false

/-- Discriminator for the `x509.UnknownAuthorityError` type assertion. -/
def DialError.isUnknownAuthority : DialError → Bool
  | .x509UnknownAuthority _ => true
  | _ => false

/-- Discriminator for the `x509.HostnameError` type assertion. -/
def DialError.isHostname : DialError → Bool
  | .x509Hostname _ => true
  | _ => false

/-- The reason of an `x509.CertificateInvalidError`, when the error is one. -/
def DialError.invalidReason : DialError → Option InvalidReason
  | .x509CertificateInvalid r _ => some r
  | _ => none

/-- The `strings.HasPrefix(err.Error(), "tls:") || err.Error() == "EOF"`
test of tracker.go line 211, with the prefix test carried out on the
character sequence of the message (the prefix is plain ASCII, so this is
the byte test Go performs). -/
def tlsRelated (e : DialError) : Bool :=
  List.isPrefixOf "tls:".data e.msg.data || e.msg == "EOF"

/-- Mirror of the non-OpError part of the error branch of `checkName`
(tracker.go lines 209-233): `r.hostAvailable = true`, then the tls:/EOF
message check, the UnknownAuthorityError assertion, the HostnameError
assertion, the CertificateInvalidError assertion with its Expired and
NotAuthorizedToSign reason checks, and finally the MiscInvalidCert
fall-through. -/
def classifyNonOpError (e : DialError) : result :=
  if tlsRelated e then { hostAvailable := true, tlsError := true }
  else if e.isUnknownAuthority then { hostAvailable := true, usingIncompleteChain := true }
  else if e.isHostname then { hostAvailable := true, usingWrongCert := true }
  else
    match e.invalidReason with
    | some reason =>
      if reason = .Expired then { hostAvailable := true, usingExpiredCert := true }
      else if reason = .NotAuthorizedToSign then
        { hostAvailable := true, usingSelfSignedCert := true }
      else { hostAvailable := true, usingMiscInvalidCert := true }
    | none => { hostAvailable := true, usingMiscInvalidCert := true }

/-- Mirror of the error branch of `checkName` (tracker.go lines 191-233):
the `*net.OpError` type assertion first (lines 197-208), where skipped is
set when the OpError reports timeout or temporary, and again when an inner
DNSError reports timeout or temporary, while hostAvailable stays false;
every other error falls to the non-OpError chain. -/
def classifyDialError (e : DialError) : result :=
  match e with
  | .opError _ timeout temporary dnsErr =>
    let sk := timeout || temporary
    let sk := match dnsErr with
      | some (dnsTimeout, dnsTemporary) => sk || dnsTimeout || dnsTemporary
      | none => sk
    { skipped := sk }
  | _ => classifyNonOpError e

/-- The TLS connection state `checkName` reads on a successful dial
(tracker.go lines 237-252). -/
structure ConnState where
  handshakeComplete : Bool
  peerCertsRaw : List (List Nat)
  ocspResponse : List Nat
  signedCertificateTimestamps : List (List Nat)
deriving DecidableEq, Repr

/-- What the network returns for one dial attempt. -/
inductive DialResult where
  | fail (e : DialError)
  | ok (st : ConnState)
deriving DecidableEq, Repr

/-- Mirror of `checkName` (tracker.go lines 188-254) as a pure function of
the dial result for the probed name: on error, the error classification;
on success, the handshake gate, then the fingerprint scan over the peer
chain, then the independent OCSP-staple and SCT checks. -/
def checkName (sha256 : List Nat → List Nat) (expectedFP : List Nat)
    (dr : DialResult) : result :=
  match dr with
  | .fail e => classifyDialError e
  | .ok st =>
    if !st.handshakeComplete then { hostAvailable := true }
    else
      { hostAvailable := true
        certUsed := st.peerCertsRaw.any (fun peer => sha256 peer == expectedFP)
        ocspStapled := st.ocspResponse.length != 0
        servesSCTs := st.signedCertificateTimestamps.length != 0 }

/-- A certificate as the scan consumes it: raw encoded bytes and the list
of subject DNS names. -/
structure Cert where
  raw : List Nat
  dnsNames : List String
deriving DecidableEq, Repr

/-- Mirror of `checkCert` (tracker.go lines 256-264): probe every DNS name
of the certificate in order against the certificate fingerprint, counting
each probed name in `processedNames` (the deferred add in `checkName`),
hand the collected results to `processResults`, and count the certificate
in `processedCerts` (the deferred add in `checkCert`). `env` fixes the
per-name dial result. -/
def checkCert (sha256 : List Nat → List Nat) (env : String → DialResult)
    (s : TState) (cert : Cert) : TState :=
  let fp := sha256 cert.raw
  let results := cert.dnsNames.map (fun name => checkName sha256 fp (env name))
  let s := { s with processedNames := s.processedNames + cert.dnsNames.length }
  let s := processResults s results
  { s with processedCerts := s.processedCerts + 1 }

/-- A scan run over a list of certificates in some processing order,
starting from the all-zero state: the sequential composition of
`checkCert` calls. A cancelled run is a run over the sublist of
certificates actually processed. -/
def runScan (sha256 : List Nat → List Nat) (env : String → DialResult)
    (certs : List Cert) : TState :=
  certs.foldl (checkCert sha256 env) zeroState

/-! Small-step model of one dispatcher worker (the goroutine body in
`begin`, tracker.go lines 279-289): receive the next certificate from the
channel, run the select that either observes a buffered stop request and
returns or falls to the default branch and runs `checkCert`, which probes
every name in order and then records the summary. Whether the select
observes a stop value is left nondeterministic (it races with the signal
handler), but the model places the select exactly where the source does:
between the receive and the body, never inside `checkCert`. -/

/-- Observable events of one worker. -/
inductive WLabel where
  | recv (c : Cert)
  | stopObserved
  | startCert (c : Cert)
  | probe (c : Cert) (i : Nat)
  | record (c : Cert)
  | chanClosed
deriving DecidableEq, Repr

/-- Control state of one worker: at the loop head with the rest of the
queue, inside the select for a just-received certificate, mid-certificate
with `done` names already probed, or returned. -/
inductive WState where
  | boundary (queue : List Cert)
  | selecting (c : Cert) (queue : List Cert)
  | mid (c : Cert) (done : Nat) (queue : List Cert)
  | exited
deriving DecidableEq, Repr

/-- One step of the worker. -/
inductive Step : WState → WLabel → WState → Prop
  | recv (c : Cert) (q : List Cert) :
      Step (.boundary (c :: q)) (.recv c) (.selecting c q)
  | chanClosed :
      Step (.boundary []) .chanClosed .exited
  | stopObserved (c : Cert) (q : List Cert) :
      Step (.selecting c q) .stopObserved .exited
  | startCert (c : Cert) (q : List Cert) :
      Step (.selecting c q) (.startCert c) (.mid c 0 q)
  | probe (c : Cert) (done : Nat) (q : List Cert)
      (h : done < c.dnsNames.length) :
      Step (.mid c done q) (.probe c done) (.mid c (done + 1) q)
  | record (c : Cert) (q : List Cert) :
      Step (.mid c c.dnsNames.length q) (.record c) (.boundary q)

/-- Multi-step execution with the trace of emitted labels. -/
inductive Reaches : WState → List WLabel → WState → Prop
  | refl (s : WState) : Reaches s [] s
  | step {s s1 s2 : WState} {l : WLabel} {ls : List WLabel} :
      Step s l s1 → Reaches s1 ls s2 → Reaches s (l :: ls) s2

/-! Aggregation lemmas. -/

/-- Componentwise sum of two aggregation states. -/
def addState (a b : TState) : TState where
  processedCerts := a.processedCerts + b.processedCerts
  processedNames := a.processedNames + b.processedNames
  NamesSkipped := a.NamesSkipped + b.NamesSkipped
  NamesUnavailable := a.NamesUnavailable + b.NamesUnavailable
  NamesTLSError := a.NamesTLSError + b.NamesTLSError
  NamesUsingMiscInvalidCert := a.NamesUsingMiscInvalidCert + b.NamesUsingMiscInvalidCert
  NamesUsingExpiredCert := a.NamesUsingExpiredCert + b.NamesUsingExpiredCert
  NamesUsingIncompleteChain := a.NamesUsingIncompleteChain + b.NamesUsingIncompleteChain
  NamesUsingWrongCert := a.NamesUsingWrongCert + b.NamesUsingWrongCert
  NamesUsingSelfSignedCert := a.NamesUsingSelfSignedCert + b.NamesUsingSelfSignedCert
  NamesWithOCSPStapled := a.NamesWithOCSPStapled + b.NamesWithOCSPStapled
  NamesServingSCTs := a.NamesServingSCTs + b.NamesServingSCTs
  NamesCertNotUsed := a.NamesCertNotUsed + b.NamesCertNotUsed
  CertsUnused := a.CertsUnused + b.CertsUnused
  CertsPartiallyUsed := a.CertsPartiallyUsed + b.CertsPartiallyUsed
  CertsTotallyUsed := a.CertsTotallyUsed + b.CertsTotallyUsed

/-- Sum of the three per-certificate buckets. -/
def bucketSum (s : TState) : Nat :=
  s.CertsUnused + s.CertsPartiallyUsed + s.CertsTotallyUsed

lemma recordName_facts (s : TState) (u : Nat) (r : result) :
    (recordName s u r).1.CertsUnused = s.CertsUnused ∧
    (recordName s u r).1.CertsPartiallyUsed = s.CertsPartiallyUsed ∧
    (recordName s u r).1.CertsTotallyUsed = s.CertsTotallyUsed ∧
    (recordName s u r).1.processedCerts = s.processedCerts ∧
    (recordName s u r).1.processedNames = s.processedNames ∧
    (recordName s u r).2 = u + (if isValidOutcome (classify r) then 1 else 0) := by
  obtain ⟨sk, ha, te, mi, ex, ic, wc, ss, cu, oc, sc⟩ := r
  cases sk with
  | true => simp [recordName, classify, isValidOutcome]
  | false =>
    cases ha with
    | false => simp [recordName, classify, isValidOutcome]
    | true =>
      cases te with
      | true => simp [recordName, classify, isValidOutcome]
      | false =>
        cases mi with
        | true => simp [recordName, classify, isValidOutcome]
        | false =>
          cases ex with
          | true => simp [recordName, classify, isValidOutcome]
          | false =>
            cases ic with
            | true => simp [recordName, classify, isValidOutcome]
            | false =>
              cases wc with
              | true => simp [recordName, classify, isValidOutcome]
              | false =>
                cases ss with
                | true => simp [recordName, classify, isValidOutcome]
                | false =>
                  cases cu with
                  | false => simp [recordName, classify, isValidOutcome]
                  | true =>
                    cases oc <;> cases sc <;>
                      simp [recordName, classify, isValidOutcome]

lemma recordName_shift (a b : TState) (u : Nat) (r : result) :
    recordName (addState a b) u r
      = (addState a (recordName b u r).1, (recordName b u r).2) := by
  obtain ⟨sk, ha, te, mi, ex, ic, wc, ss, cu, oc, sc⟩ := r
  cases sk with
  | true => simp [recordName, addState, Nat.add_assoc]
  | false =>
    cases ha with
    | false => simp [recordName, addState, Nat.add_assoc]
    | true =>
      cases te with
      | true => simp [recordName, addState, Nat.add_assoc]
      | false =>
        cases mi with
        | true => simp [recordName, addState, Nat.add_assoc]
        | false =>
          cases ex with
          | true => simp [recordName, addState, Nat.add_assoc]
          | false =>
            cases ic with
            | true => simp [recordName, addState, Nat.add_assoc]
            | false =>
              cases wc with
              | true => simp [recordName, addState, Nat.add_assoc]
              | false =>
                cases ss with
                | true => simp [recordName, addState, Nat.add_assoc]
                | false =>
                  cases cu with
                  | false => simp [recordName, addState, Nat.add_assoc]
                  | true =>
                    cases oc <;> cases sc <;>
                      simp [recordName, addState, Nat.add_assoc]

lemma foldRecord_facts (rs : List result) (s : TState) (u : Nat) :
    (rs.foldl recordLoop (s, u)).1.CertsUnused = s.CertsUnused ∧
    (rs.foldl recordLoop (s, u)).1.CertsPartiallyUsed = s.CertsPartiallyUsed ∧
    (rs.foldl recordLoop (s, u)).1.CertsTotallyUsed = s.CertsTotallyUsed ∧
    (rs.foldl recordLoop (s, u)).1.processedCerts = s.processedCerts ∧
    (rs.foldl recordLoop (s, u)).1.processedNames = s.processedNames ∧
    (rs.foldl recordLoop (s, u)).2 = u + countValid rs := by
  induction rs generalizing s u with
  | nil => simp [countValid]
  | cons r rs ih =>
    simp only [List.foldl_cons]
    have hrl : recordLoop (s, u) r = recordName s u r := rfl
    rw [hrl]
    obtain ⟨h1, h2, h3, h4, h5, h6⟩ := recordName_facts s u r
    obtain ⟨g1, g2, g3, g4, g5, g6⟩ := ih (recordName s u r).1 (recordName s u r).2
    refine ⟨by rw [g1, h1], by rw [g2, h2], by rw [g3, h3], by rw [g4, h4],
      by rw [g5, h5], ?_⟩
    rw [g6, h6]
    simp [countValid, List.countP_cons, Nat.add_comm, Nat.add_assoc, Nat.add_left_comm]

/-- Number of valid outcomes never exceeds the number of results. -/
lemma countValid_le (rs : List result) : countValid rs ≤ rs.length :=
  List.countP_le_length _

lemma foldRecord_used (rs : List result) (s : TState) :
    (rs.foldl recordLoop (s, 0)).2 = countValid rs := by
  simpa using (foldRecord_facts rs s 0).2.2.2.2.2

lemma processResults_fully (s : TState) (rs : List result)
    (h : countValid rs = rs.length) :
    (processResults s rs).CertsTotallyUsed = s.CertsTotallyUsed + 1 ∧
    (processResults s rs).CertsPartiallyUsed = s.CertsPartiallyUsed ∧
    (processResults s rs).CertsUnused = s.CertsUnused ∧
    (processResults s rs).processedCerts = s.processedCerts := by
  obtain ⟨g1, g2, g3, g4, g5, g6⟩ := foldRecord_facts rs s 0
  have hu := foldRecord_used rs s
  simp [processResults, hu, h, g1, g2, g3, g4]

lemma processResults_partially (s : TState) (rs : List result)
    (hlt : countValid rs < rs.length) (hpos : 0 < countValid rs) :
    (processResults s rs).CertsPartiallyUsed = s.CertsPartiallyUsed + 1 ∧
    (processResults s rs).CertsTotallyUsed = s.CertsTotallyUsed ∧
    (processResults s rs).CertsUnused = s.CertsUnused ∧
    (processResults s rs).processedCerts = s.processedCerts := by
  obtain ⟨g1, g2, g3, g4, g5, g6⟩ := foldRecord_facts rs s 0
  have hu := foldRecord_used rs s
  have hne : ¬ countValid rs = rs.length := by omega
  simp [processResults, hu, hne, hlt, hpos, g1, g2, g3, g4]

lemma processResults_unused (s : TState) (rs : List result)
    (h0 : countValid rs = 0) (hlen : 0 < rs.length) :
    (processResults s rs).CertsUnused = s.CertsUnused + 1 ∧
    (processResults s rs).CertsTotallyUsed = s.CertsTotallyUsed ∧
    (processResults s rs).CertsPartiallyUsed = s.CertsPartiallyUsed ∧
    (processResults s rs).processedCerts = s.processedCerts := by
  obtain ⟨g1, g2, g3, g4, g5, g6⟩ := foldRecord_facts rs s 0
  have hu := foldRecord_used rs s
  have hne1 : ¬ countValid rs = rs.length := by omega
  have hne2 : ¬ (countValid rs < rs.length ∧ countValid rs > 0) := by omega
  have hne0 : ¬ (0 = rs.length) := by omega
  simp [processResults, hu, hne1, hne2, hne0, h0, g1, g2, g3, g4]

lemma processResults_bucketSum (s : TState) (rs : List result) :
    bucketSum (processResults s rs) = bucketSum s + 1 ∧
    (processResults s rs).processedCerts = s.processedCerts := by
  have hle := countValid_le rs
  by_cases h1 : countValid rs = rs.length
  · obtain ⟨a, b, c, d⟩ := processResults_fully s rs h1
    refine ⟨?_, d⟩
    unfold bucketSum
    omega
  · by_cases h2 : 0 < countValid rs
    · obtain ⟨a, b, c, d⟩ := processResults_partially s rs (by omega) h2
      refine ⟨?_, d⟩
      unfold bucketSum
      omega
    · obtain ⟨a, b, c, d⟩ := processResults_unused s rs (by omega) (by omega)
      refine ⟨?_, d⟩
      unfold bucketSum
      omega

lemma checkCert_counts (sha : List Nat → List Nat) (env : String → DialResult)
    (s : TState) (c : Cert) :
    bucketSum (checkCert sha env s c) = bucketSum s + 1 ∧
    (checkCert sha env s c).processedCerts = s.processedCerts + 1 := by
  obtain ⟨hb, hp⟩ := processResults_bucketSum
    { s with processedNames := s.processedNames + c.dnsNames.length }
    (c.dnsNames.map (fun name => checkName sha (sha c.raw) (env name)))
  simp only [checkCert]
  simp only [bucketSum] at *
  constructor
  · simpa using hb
  · simpa using hp

lemma foldCheck_counts (sha : List Nat → List Nat) (env : String → DialResult)
    (certs : List Cert) (s : TState) :
    bucketSum (certs.foldl (checkCert sha env) s) = bucketSum s + certs.length ∧
    (certs.foldl (checkCert sha env) s).processedCerts
      = s.processedCerts + certs.length := by
  induction certs generalizing s with
  | nil => simp
  | cons c cs ih =>
    obtain ⟨hb, hp⟩ := checkCert_counts sha env s c
    obtain ⟨gb, gp⟩ := ih (checkCert sha env s c)
    simp only [List.foldl_cons, List.length_cons]
    constructor <;> omega

lemma addState_zero (a : TState) : addState a zeroState = a := by
  cases a
  simp [addState, zeroState]

lemma addState_comm (a b : TState) : addState a b = addState b a := by
  cases a
  cases b
  simp [addState, Nat.add_comm]

lemma addState_assoc (a b c : TState) :
    addState (addState a b) c = addState a (addState b c) := by
  cases a
  cases b
  cases c
  simp [addState, Nat.add_assoc]

lemma foldRecord_shift (rs : List result) (a b : TState) (u : Nat) :
    rs.foldl recordLoop (addState a b, u)
      = (addState a (rs.foldl recordLoop (b, u)).1,
         (rs.foldl recordLoop (b, u)).2) := by
  induction rs generalizing b u with
  | nil => simp
  | cons r rs ih =>
    simp only [List.foldl_cons]
    have h : recordLoop (addState a b, u) r
        = (addState a (recordLoop (b, u) r).1, (recordLoop (b, u) r).2) :=
      recordName_shift a b u r
    rw [h]
    have h2 := ih (recordLoop (b, u) r).1 (recordLoop (b, u) r).2
    simpa using h2

lemma processResults_shift (a b : TState) (rs : List result) :
    processResults (addState a b) rs = addState a (processResults b rs) := by
  simp only [processResults]
  rw [foldRecord_shift]
  by_cases h1 : (rs.foldl recordLoop (b, 0)).2 = rs.length
  · simp [h1, addState, Nat.add_assoc]
  · by_cases h2 : (rs.foldl recordLoop (b, 0)).2 < rs.length ∧
        (rs.foldl recordLoop (b, 0)).2 > 0
    · simp [h1, h2, addState, Nat.add_assoc]
    · by_cases h3 : (rs.foldl recordLoop (b, 0)).2 = 0
      · have h4 : ¬ (0 = rs.length) := by omega
        simp [h1, h2, h3, h4, addState, Nat.add_assoc]
      · simp [h1, h2, h3, addState]

lemma checkCert_shift (sha : List Nat → List Nat) (env : String → DialResult)
    (a b : TState) (c : Cert) :
    checkCert sha env (addState a b) c = addState a (checkCert sha env b c) := by
  simp only [checkCert]
  have h1 : { addState a b with
        processedNames := (addState a b).processedNames + c.dnsNames.length }
      = addState a { b with processedNames := b.processedNames + c.dnsNames.length } := by
    cases a
    cases b
    simp [addState, Nat.add_assoc]
  rw [h1, processResults_shift]
  generalize processResults { b with
    processedNames := b.processedNames + c.dnsNames.length }
    (c.dnsNames.map (fun name => checkName sha (sha c.raw) (env name))) = X
  cases a
  cases X
  simp [addState, Nat.add_assoc]

lemma checkCert_delta (sha : List Nat → List Nat) (env : String → DialResult)
    (s : TState) (c : Cert) :
    checkCert sha env s c = addState s (checkCert sha env zeroState c) := by
  conv_lhs => rw [show s = addState s zeroState from (addState_zero s).symm]
  rw [checkCert_shift]

lemma checkCert_comm (sha : List Nat → List Nat) (env : String → DialResult)
    (s : TState) (a b : Cert) :
    checkCert sha env (checkCert sha env s a) b
      = checkCert sha env (checkCert sha env s b) a := by
  rw [checkCert_delta sha env (checkCert sha env s a) b,
      checkCert_delta sha env s a,
      checkCert_delta sha env (checkCert sha env s b) a,
      checkCert_delta sha env s b,
      addState_assoc, addState_assoc,
      addState_comm (checkCert sha env zeroState a) (checkCert sha env zeroState b)]

/-! Unfolding equations for the probe, proved by rfl (stated so that they
reduce on the constructor shape alone). -/

lemma classifyDialError_op (m : String) (t tp : Bool) (d : Option (Bool × Bool)) :
    classifyDialError (.opError m t tp d)
      = { skipped := match d with
            | some (dt, dtp) => (t || tp) || dt || dtp
            | none => t || tp } := rfl

lemma classifyDialError_nonOp (e : DialError) (h : e.isOpError = false) :
    classifyDialError e = classifyNonOpError e := by
  cases e with
  | opError m t tp d => simp [DialError.isOpError] at h
  | x509UnknownAuthority m => rfl
  | x509Hostname m => rfl
  | x509CertificateInvalid r m => rfl
  | otherError m => rfl

lemma checkName_fail (sha : List Nat → List Nat) (fp : List Nat) (e : DialError) :
    checkName sha fp (.fail e) = classifyDialError e := rfl

lemma checkName_ok (sha : List Nat → List Nat) (fp : List Nat) (st : ConnState) :
    checkName sha fp (.ok st)
      = if !st.handshakeComplete then { hostAvailable := true }
        else
          { hostAvailable := true
            certUsed := st.peerCertsRaw.any (fun peer => sha peer == fp)
            ocspStapled := st.ocspResponse.length != 0
            servesSCTs := st.signedCertificateTimestamps.length != 0 } := rfl

/-! Claim theorems. -/

/-- Claim C2, counterexample: the claim says `percent` returns 0 when the
denominator is zero, but `percent(1, 0)` is `(1.0 / 0.0) * 100.0`, which is
positive infinity, not 0. -/
theorem percent_zero_cex :
    percent 1 0 = GoFloat.posInf ∧ GoFloat.posInf ≠ GoFloat.finite 0 := by
  constructor
  · simp [percent, floatOfInt64, fdiv, fmul]
  · simp

/-- Claim C2 as amended: `percent` is a total function — float64 division
by zero never panics in Go — and when the denominator `t` is zero it
returns positive infinity for `n > 0`, negative infinity for `n < 0`, and
NaN for `n = 0` (never the finite value 0). -/
theorem percent_zero_denominator (n : ℤ) :
    percent n 0 = if 0 < n then GoFloat.posInf
      else if n < 0 then GoFloat.negInf else GoFloat.nan := by
  rcases lt_trichotomy n 0 with h | h | h
  · have h1 : ¬ (0 < n) := by omega
    have hq : ((n : ℚ) < 0) := by exact_mod_cast h
    have hq2 : ¬ ((0 : ℚ) < (n : ℚ)) := by exact_mod_cast h1
    simp [percent, floatOfInt64, fdiv, fmul, h, h1, hq, hq2]
  · subst h
    simp [percent, floatOfInt64, fdiv, fmul]
  · have hq : ((0 : ℚ) < (n : ℚ)) := by exact_mod_cast h
    simp [percent, floatOfInt64, fdiv, fmul, h, hq]

/-- Claim C3: when the dial fails with a `*net.OpError`, the outcome is
Skipped exactly when the error reports timeout or temporary (on the
OpError itself or on an inner DNS resolution error), and Unavailable in
every other case; no other outcome is reachable on this branch. -/
theorem opError_transient_or_unavailable (sha : List Nat → List Nat)
    (fp : List Nat) (m : String) (timeout temporary : Bool)
    (dnsErr : Option (Bool × Bool)) :
    classify (checkName sha fp (.fail (.opError m timeout temporary dnsErr)))
      = if timeout || temporary ||
            (match dnsErr with
             | some (dnsTimeout, dnsTemporary) => dnsTimeout || dnsTemporary
             | none => false) then
          ProbeOutcome.Skipped
        else ProbeOutcome.Unavailable := by
  cases dnsErr with
  | none =>
    cases timeout <;> cases temporary <;>
      simp [checkName_fail, classifyDialError_op, classify]
  | some p =>
    obtain ⟨dt, dtp⟩ := p
    cases timeout <;> cases temporary <;> cases dt <;> cases dtp <;>
      simp [checkName_fail, classifyDialError_op, classify]

/-- Claim C5: when the dial succeeds and the handshake is complete, the
outcome is Valid — with the OCSP-staple flag iff a stapled response is
present and the SCT flag iff signed certificate timestamps are present,
each read independently of the other — when some presented certificate has
the expected fingerprint, and CertNotPresented when none does. -/
theorem handshake_success_outcome (sha : List Nat → List Nat) (fp : List Nat)
    (st : ConnState) (h : st.handshakeComplete = true) :
    classify (checkName sha fp (.ok st))
      = if st.peerCertsRaw.any (fun peer => sha peer == fp) then
          ProbeOutcome.Valid (st.ocspResponse.length != 0)
            (st.signedCertificateTimestamps.length != 0)
        else ProbeOutcome.CertNotPresented := by
  cases hc : st.peerCertsRaw.any (fun peer => sha peer == fp) <;>
    simp [checkName_ok, h, classify, hc]

theorem handshake_success_outcome_witness :
    classify (checkName (fun l => l) [1] (.ok ⟨true, [[1]], [], [[5]]⟩))
      = ProbeOutcome.Valid false true :=
  (handshake_success_outcome (fun l => l) [1] ⟨true, [[1]], [], [[5]]⟩ rfl).trans
    (by decide)

/-- Claim C9: a certificate whose subject-name list is empty produces no
name-level outcome at all, and `processResults` classifies it as totally
used — `used == len(results) == 0` is tested first — so `CertsTotallyUsed`
is incremented, not `CertsUnused`; the only other change is the
processed-certificates count. -/
theorem emptyNames_totallyUsed (sha : List Nat → List Nat)
    (env : String → DialResult) (s : TState) (cert : Cert)
    (h : cert.dnsNames = []) :
    checkCert sha env s cert
      = { s with processedCerts := s.processedCerts + 1,
                 CertsTotallyUsed := s.CertsTotallyUsed + 1 } := by
  obtain ⟨raw, names⟩ := cert
  dsimp only at h
  subst h
  cases s
  simp [checkCert, processResults]

theorem emptyNames_totallyUsed_witness :
    checkCert (fun l => l) (fun _ => .fail (.otherError "refused")) zeroState
        ⟨[], []⟩
      = { zeroState with
          processedCerts := zeroState.processedCerts + 1,
          CertsTotallyUsed := zeroState.CertsTotallyUsed + 1 } :=
  emptyNames_totallyUsed (fun l => l) (fun _ => .fail (.otherError "refused"))
    zeroState ⟨[], []⟩ rfl

/-- Claim C1, counterexample: for a certificate with an empty results list,
`used` (the count of Valid outcomes) is 0, yet `CertsUnused` is not
incremented — `CertsTotallyUsed` is, because `used == len(results)` is
tested before `used == 0`. So the clause "used == 0 increments CertsUnused"
fails as stated. -/
theorem processResults_empty_cex :
    countValid ([] : List result) = 0 ∧
    (processResults zeroState []).CertsUnused = 0 ∧
    (processResults zeroState []).CertsTotallyUsed = 1 := by
  decide

/-- Claim C1 as amended: `processResults` increments exactly one of the
three CertificateSummary counters (their sum grows by exactly one), and
the bucket matches `used` = count of Valid outcomes: `used == total`
increments CertsTotallyUsed; `0 < used < total` increments
CertsPartiallyUsed; `used == 0` increments CertsUnused provided the
certificate has at least one name — a zero-name certificate satisfies
`used == total` first and increments CertsTotallyUsed instead. -/
theorem processResults_bucket_spec (s : TState) (rs : List result) :
    bucketSum (processResults s rs) = bucketSum s + 1 ∧
    (countValid rs = rs.length →
      (processResults s rs).CertsTotallyUsed = s.CertsTotallyUsed + 1 ∧
      (processResults s rs).CertsPartiallyUsed = s.CertsPartiallyUsed ∧
      (processResults s rs).CertsUnused = s.CertsUnused) ∧
    (0 < countValid rs ∧ countValid rs < rs.length →
      (processResults s rs).CertsPartiallyUsed = s.CertsPartiallyUsed + 1 ∧
      (processResults s rs).CertsTotallyUsed = s.CertsTotallyUsed ∧
      (processResults s rs).CertsUnused = s.CertsUnused) ∧
    (countValid rs = 0 ∧ 0 < rs.length →
      (processResults s rs).CertsUnused = s.CertsUnused + 1 ∧
      (processResults s rs).CertsTotallyUsed = s.CertsTotallyUsed ∧
      (processResults s rs).CertsPartiallyUsed = s.CertsPartiallyUsed) := by
  refine ⟨(processResults_bucketSum s rs).1, fun h => ?_, fun h => ?_, fun h => ?_⟩
  · obtain ⟨a, b, c, d⟩ := processResults_fully s rs h
    exact ⟨a, b, c⟩
  · obtain ⟨a, b, c, d⟩ := processResults_partially s rs h.2 h.1
    exact ⟨a, b, c⟩
  · obtain ⟨a, b, c, d⟩ := processResults_unused s rs h.1 h.2
    exact ⟨a, b, c⟩

theorem processResults_bucket_spec_witness :
    ((0 < countValid [{ hostAvailable := true, certUsed := true }, {}] ∧
        countValid [{ hostAvailable := true, certUsed := true }, {}]
          < ([{ hostAvailable := true, certUsed := true }, {}] : List result).length) ∧
      (processResults zeroState
          [{ hostAvailable := true, certUsed := true }, {}]).CertsPartiallyUsed
        = zeroState.CertsPartiallyUsed + 1) ∧
    ((countValid [({ hostAvailable := true, certUsed := true } : result)]
        = ([{ hostAvailable := true, certUsed := true }] : List result).length) ∧
      (processResults zeroState
          [{ hostAvailable := true, certUsed := true }]).CertsTotallyUsed
        = zeroState.CertsTotallyUsed + 1) ∧
    ((countValid [({} : result)] = 0 ∧ 0 < ([{}] : List result).length) ∧
      (processResults zeroState [({} : result)]).CertsUnused
        = zeroState.CertsUnused + 1) :=
  ⟨⟨by decide,
    ((processResults_bucket_spec zeroState
        [{ hostAvailable := true, certUsed := true }, {}]).2.2.1 (by decide)).1⟩,
   ⟨by decide,
    ((processResults_bucket_spec zeroState
        [{ hostAvailable := true, certUsed := true }]).2.1 (by decide)).1⟩,
   ⟨by decide,
    ((processResults_bucket_spec zeroState [({} : result)]).2.2.2 (by decide)).1⟩⟩

/-- Claim C6: at the end of any run — over whatever list of certificates
was actually processed, so a cancelled run is covered by its processed
sublist — every processed certificate incremented exactly one bucket, and
CertsUnused + CertsPartiallyUsed + CertsTotallyUsed equals processedCerts,
the number of certificates actually processed. -/
theorem run_bucket_partition (sha : List Nat → List Nat)
    (env : String → DialResult) (certs : List Cert) :
    (∀ s rs, bucketSum (processResults s rs) = bucketSum s + 1) ∧
    (runScan sha env certs).CertsUnused + (runScan sha env certs).CertsPartiallyUsed
        + (runScan sha env certs).CertsTotallyUsed
      = (runScan sha env certs).processedCerts ∧
    (runScan sha env certs).processedCerts = certs.length := by
  obtain ⟨hb, hp⟩ := foldCheck_counts sha env certs zeroState
  unfold runScan
  unfold bucketSum at hb
  have hz1 : zeroState.CertsUnused = 0 := rfl
  have hz2 : zeroState.CertsPartiallyUsed = 0 := rfl
  have hz3 : zeroState.CertsTotallyUsed = 0 := rfl
  have hz4 : zeroState.processedCerts = 0 := rfl
  refine ⟨fun s rs => (processResults_bucketSum s rs).1, ?_, ?_⟩
  · omega
  · omega

/-- Claim C4: past the network layer the classifier is a strict priority
chain, first match wins: a tls-prefixed or EOF message yields TLSError;
else an unknown-authority error yields IncompleteChain; else a
hostname-mismatch error yields WrongCert; else a certificate-validity
error yields ExpiredCert when the reason is Expired, SelfSignedCert when
the reason is NotAuthorizedToSign, and MiscInvalidCert for any other
validity reason. -/
theorem priority_chain_past_network (sha : List Nat → List Nat) (fp : List Nat)
    (e : DialError) (hop : e.isOpError = false) :
    (tlsRelated e = true →
      classify (checkName sha fp (.fail e)) = ProbeOutcome.TLSError) ∧
    (tlsRelated e = false → e.isUnknownAuthority = true →
      classify (checkName sha fp (.fail e)) = ProbeOutcome.IncompleteChain) ∧
    (tlsRelated e = false → e.isUnknownAuthority = false → e.isHostname = true →
      classify (checkName sha fp (.fail e)) = ProbeOutcome.WrongCert) ∧
    (tlsRelated e = false → e.isUnknownAuthority = false → e.isHostname = false →
      e.invalidReason = some InvalidReason.Expired →
      classify (checkName sha fp (.fail e)) = ProbeOutcome.ExpiredCert) ∧
    (tlsRelated e = false → e.isUnknownAuthority = false → e.isHostname = false →
      e.invalidReason = some InvalidReason.NotAuthorizedToSign →
      classify (checkName sha fp (.fail e)) = ProbeOutcome.SelfSignedCert) ∧
    (∀ reason, tlsRelated e = false → e.isUnknownAuthority = false →
      e.isHostname = false → e.invalidReason = some reason →
      reason ≠ InvalidReason.Expired → reason ≠ InvalidReason.NotAuthorizedToSign →
      classify (checkName sha fp (.fail e)) = ProbeOutcome.MiscInvalidCert) := by
  rw [checkName_fail, classifyDialError_nonOp e hop]
  refine ⟨fun h1 => ?_, fun h1 h2 => ?_, fun h1 h2 h3 => ?_,
    fun h1 h2 h3 h4 => ?_, fun h1 h2 h3 h4 => ?_,
    fun reason h1 h2 h3 h4 h5 h6 => ?_⟩
  · simp [classifyNonOpError, classify, h1]
  · simp [classifyNonOpError, classify, h1, h2]
  · simp [classifyNonOpError, classify, h1, h2, h3]
  · simp [classifyNonOpError, classify, h1, h2, h3, h4]
  · simp [classifyNonOpError, classify, h1, h2, h3, h4]
  · simp [classifyNonOpError, classify, h1, h2, h3, h4, h5, h6]

theorem priority_chain_past_network_witness :
    classify (checkName (fun l => l) []
        (.fail (.x509CertificateInvalid .Expired "x509: certificate has expired")))
      = ProbeOutcome.ExpiredCert :=
  (priority_chain_past_network (fun l => l) []
      (.x509CertificateInvalid .Expired "x509: certificate has expired")
      rfl).2.2.2.1 (by decide) rfl rfl rfl

/-- Claim C10: every connection error that is not a `*net.OpError` marks
the host available; and when it is additionally not tls-prefixed and not
EOF, not an unknown-authority error, not a hostname error, and not a
certificate-validity error with reason Expired or NotAuthorizedToSign, the
outcome is MiscInvalidCert — the catch-all also absorbs errors that are
not certificate-validity errors at all. -/
theorem nonOpError_hostAvailable_catchall (sha : List Nat → List Nat)
    (fp : List Nat) (e : DialError) (hop : e.isOpError = false) :
    (checkName sha fp (.fail e)).hostAvailable = true ∧
    (tlsRelated e = false → e.isUnknownAuthority = false → e.isHostname = false →
      (∀ reason, e.invalidReason = some reason →
        reason ≠ InvalidReason.Expired ∧ reason ≠ InvalidReason.NotAuthorizedToSign) →
      classify (checkName sha fp (.fail e)) = ProbeOutcome.MiscInvalidCert) := by
  rw [checkName_fail, classifyDialError_nonOp e hop]
  constructor
  · by_cases h1 : tlsRelated e = true
    · simp [classifyNonOpError, h1]
    · by_cases h2 : e.isUnknownAuthority = true
      · simp [classifyNonOpError, h1, h2]
      · by_cases h3 : e.isHostname = true
        · simp [classifyNonOpError, h1, h2, h3]
        · cases hr : e.invalidReason with
          | none => simp [classifyNonOpError, h1, h2, h3, hr]
          | some reason =>
            by_cases h4 : reason = InvalidReason.Expired
            · simp [classifyNonOpError, h1, h2, h3, hr, h4]
            · by_cases h5 : reason = InvalidReason.NotAuthorizedToSign
              · simp [classifyNonOpError, h1, h2, h3, hr, h4, h5]
              · simp [classifyNonOpError, h1, h2, h3, hr, h4, h5]
  · intro h1 h2 h3 h4
    cases hr : e.invalidReason with
    | none => simp [classifyNonOpError, classify, h1, h2, h3, hr]
    | some reason =>
      obtain ⟨r1, r2⟩ := h4 reason hr
      simp [classifyNonOpError, classify, h1, h2, h3, hr, r1, r2]

theorem nonOpError_hostAvailable_catchall_witness :
    (checkName (fun l => l) []
        (.fail (.otherError "connection refused"))).hostAvailable = true ∧
    classify (checkName (fun l => l) [] (.fail (.otherError "connection refused")))
      = ProbeOutcome.MiscInvalidCert := by
  have h := nonOpError_hostAvailable_catchall (fun l => l) []
    (.otherError "connection refused") rfl
  refine ⟨h.1, h.2 (by decide) rfl rfl ?_⟩
  intro reason hr
  simp [DialError.invalidReason] at hr

lemma reaches_mid_exited {s : WState} {labs : List WLabel} {s2 : WState}
    (h : Reaches s labs s2) :
    ∀ c done q, s = .mid c done q → s2 = .exited →
      WLabel.record c ∈ labs ∧
      ∀ i, done ≤ i → i < c.dnsNames.length → WLabel.probe c i ∈ labs := by
  induction h with
  | refl s =>
    intro c done q h1 h2
    subst h1
    exact absurd h2 (by simp)
  | step hstep hr ih =>
    intro c done q h1 h2
    subst h1
    subst h2
    cases hstep with
    | probe _ _ _ hlt =>
      obtain ⟨hrec, hpr⟩ := ih c (done + 1) q rfl rfl
      refine ⟨List.mem_cons_of_mem _ hrec, ?_⟩
      intro i hle hlt2
      rcases Nat.eq_or_lt_of_le hle with heq | hlt3
      · exact heq ▸ List.mem_cons_self _ _
      · exact List.mem_cons_of_mem _ (hpr i (by omega) hlt2)
    | record _ _ =>
      refine ⟨List.mem_cons_self _ _, ?_⟩
      intro i hle hlt2
      omega

/-- Claim C7: once a worker has started processing a certificate (it is in
a mid-certificate state), any execution that ends with the worker exiting
must first probe every remaining name of that certificate and record its
summary: the trace to the exit contains the record event and a probe event
for every remaining name index. The stop signal is only consulted in the
select between the channel receive and the certificate body, so no step
leaves a mid-certificate state for the exit. -/
theorem worker_finishes_started_cert (c : Cert) (done : Nat) (q : List Cert)
    (labs : List WLabel) (h : Reaches (.mid c done q) labs .exited) :
    WLabel.record c ∈ labs ∧
    ∀ i, done ≤ i → i < c.dnsNames.length → WLabel.probe c i ∈ labs :=
  reaches_mid_exited h c done q rfl rfl

theorem worker_finishes_started_cert_witness :
    WLabel.record (⟨[], ["a"]⟩ : Cert)
        ∈ [WLabel.probe ⟨[], ["a"]⟩ 0, WLabel.record ⟨[], ["a"]⟩,
           WLabel.chanClosed] ∧
    ∀ i, 0 ≤ i → i < (Cert.mk [] ["a"]).dnsNames.length →
      WLabel.probe (⟨[], ["a"]⟩ : Cert) i
        ∈ [WLabel.probe ⟨[], ["a"]⟩ 0, WLabel.record ⟨[], ["a"]⟩,
           WLabel.chanClosed] :=
  worker_finishes_started_cert ⟨[], ["a"]⟩ 0 [] _
    (Reaches.step (Step.probe ⟨[], ["a"]⟩ 0 [] (by decide))
      (Reaches.step (Step.record ⟨[], ["a"]⟩ [])
        (Reaches.step Step.chanClosed (Reaches.refl _))))

/-- Claim C8: the final aggregation state of a run is independent of the
order in which the certificates are processed — a single worker processing
the queue in order and any pool of workers interleaving (which yields
some permutation of the processing order, each certificate still processed
exactly once with the same fixed per-name probe results) produce identical
final RunStatistics. -/
theorem dispatcher_order_independent (sha : List Nat → List Nat)
    (env : String → DialResult) (certs1 certs2 : List Cert)
    (h : certs1.Perm certs2) :
    runScan sha env certs1 = runScan sha env certs2 := by
  unfold runScan
  exact h.foldl_eq' (fun x _ y _ z => checkCert_comm sha env z x y) zeroState

theorem dispatcher_order_independent_witness :
    ([⟨[1], ["a"]⟩, ⟨[2], ["b"]⟩] : List Cert).Perm
        [⟨[2], ["b"]⟩, ⟨[1], ["a"]⟩] ∧
    runScan (fun l => l) (fun _ => .fail (.otherError "refused"))
        [⟨[1], ["a"]⟩, ⟨[2], ["b"]⟩]
      = runScan (fun l => l) (fun _ => .fail (.otherError "refused"))
        [⟨[2], ["b"]⟩, ⟨[1], ["a"]⟩] :=
  ⟨List.Perm.swap (⟨[2], ["b"]⟩ : Cert) (⟨[1], ["a"]⟩ : Cert) [],
   dispatcher_order_independent (fun l => l)
     (fun _ => .fail (.otherError "refused"))
     [⟨[1], ["a"]⟩, ⟨[2], ["b"]⟩] [⟨[2], ["b"]⟩, ⟨[1], ["a"]⟩]
     (List.Perm.swap (⟨[2], ["b"]⟩ : Cert) (⟨[1], ["a"]⟩ : Cert) [])⟩

end CAScan


